import Mathlib

/-!
Shallow embedding of `src/wpscan_tui/app.py` (class `WPScanTUI`): the run
lifecycle controller (`action_run_scan`, `action_stop_scan`, the
`_stream_output` loop, `_finish_scan`) and the history store
(`add_history_entry`, `load_history`, `save_history`,
`clear_history_storage`), together with theorems checking the design
claims of the design document about them.

External effects (the wall clock, `shutil.which`, `shlex.split`, process
spawning and exit codes, filesystem success/failure) are passed in as
explicit parameters.  Widget contents touched by the code are mirrored by
plain fields, and every notification pushed to the display layer (the
Output Sink) is recorded in an event list.
-/

namespace WpscanTui

/-- JSON value tree, the shape of data passed through the `json.dumps` /
`json.loads` calls in `save_history` and `load_history`.  Text
serialisation is the job of the Python standard library and is modelled at the
value level: `loads (dumps v)` is the identity on such trees. -/
inductive Json where
  | null
  | bool (b : Bool)
  | num (n : Int)
  | str (s : String)
  | arr (elems : List Json)
  | obj (fields : List (String × Json))

/-- Python `dict.get(key)` on a JSON object: the value of the first binding
with the given key, if any; `none` on non-objects. -/
def jsonGet : Json → String → Option Json
  | .obj fields, key => (fields.find? (fun p => p.1 == key)).map (fun p => p.2)
  | _, _ => none

/-- State of the backing history file at
`~/.local/state/wpscan-tui/history.json`.  `missing`: `path.exists()` is
false; `unreadable`: the path exists but `read_text` raises;
`malformed`: the text reads but `json.loads` raises; `content j`: the
text parses to the JSON value `j`. -/
inductive FileState where
  | missing
  | unreadable
  | malformed
  | content (j : Json)

/-- A `datetime.now()` snapshot: whole seconds on the wall clock (used for
elapsed-time arithmetic) and its ISO-8601 second-precision rendering
(used for Run Record timestamps). -/
structure Clock where
  seconds : Nat
  iso : String

/-- Notifications pushed to the display layer: `set_status` label updates,
`_update_progress` bar updates, status-chip updates from `_update_chips`,
and `RichLog` operations.  The `elapsed_chip` and `code_chip` widgets are
never mounted by `compose` (they stay `None`), so `_update_chips` only
ever changes the status chip. -/
inductive Event where
  | statusMsg (text : String) (error : Bool)
  | progress (percent : Nat) (label : String)
  | chip (status : String)
  | logClear
  | line (text : String)
deriving DecidableEq

/-- The mutable fields of the `WPScanTUI` instance that the run lifecycle
and history logic touch.  `process` is whether `self.process` is
non-`None` (a child process handle exists: the run is active),
`output_task` whether `self.output_task` is non-`None`.  The widget
contents written by the code are mirrored by `statusText`/`statusError`
(status label), `chipStatus` (status chip), `progressPercent` /
`progressLabel` (progress bar and its label) and the two button disabled
flags.  `file` is the backing history file. -/
structure AppState where
  process : Bool
  output_task : Bool
  history : List Json
  current_output : List String
  current_target : String
  current_cmd : String
  start_time : Option Nat
  progressPercent : Nat
  progressLabel : String
  statusText : String
  statusError : Bool
  chipStatus : String
  runDisabled : Bool
  stopDisabled : Bool
  file : FileState

/-- The state right after `__init__` and `compose`: no process, no task,
empty history and output, status label "Ready", chip "Idle", Run enabled,
Stop disabled. -/
def initState (fs : FileState) : AppState :=
  { process := false, output_task := false, history := [], current_output := []
  , current_target := "", current_cmd := "", start_time := none
  , progressPercent := 0, progressLabel := "0%", statusText := "Ready"
  , statusError := false, chipStatus := "Idle", runDisabled := false
  , stopDisabled := true, file := fs }

/-- Python `str.strip()` with no argument: remove leading and trailing
whitespace. -/
def strip (s : String) : String :=
  ⟨((s.data.dropWhile Char.isWhitespace).reverse.dropWhile Char.isWhitespace).reverse⟩

/-- Zero-padded two-digit rendering, as Python `f"{n:02d}"` for `n ≥ 0`. -/
def pad2 (n : Nat) : String := if n < 10 then "0" ++ toString n else toString n

/-- Embeds `_elapsed_text`: "mm:ss" since `start_time`, "00:00" when unset. -/
def elapsed_text (start_time : Option Nat) (now : Nat) : String :=
  match start_time with
  | none => "00:00"
  | some t =>
    let d := now - t
    pad2 (d / 60) ++ ":" ++ pad2 (d % 60)

/-- Embeds `set_status`: writes the status label; when `error` is set it also
routes through `_update_chips(status="error")`. -/
def set_status (s : AppState) (text : String) (error : Bool) :
    AppState × List Event :=
  let s1 := { s with statusText := text, statusError := error }
  if error then
    ({ s1 with chipStatus := "error" }, [.statusMsg text true, .chip "error"])
  else (s1, [.statusMsg text false])

/-- Embeds `_update_chips` restricted to its only observable effect: the status
chip (the elapsed and exit-code chips are never mounted). -/
def update_chips (s : AppState) (status : String) : AppState × Event :=
  ({ s with chipStatus := status }, .chip status)

/-- The clamp `max(0, min(100, percent))` applied by `_update_progress`. -/
def clampPct (p : Int) : Nat := (min 100 (max 0 p)).toNat

/-- Embeds `_update_progress`: clamps and stores the percentage when one is given,
and updates the label (defaulting to the elapsed text). -/
def update_progress (s : AppState) (percent : Option Int)
    (label : Option String) (now : Nat) : AppState × Event :=
  let s1 :=
    match percent with
    | some p => { s with progressPercent := clampPct p }
    | none => s
  let lbl := label.getD ("Elapsed " ++ elapsed_text s.start_time now)
  ({ s1 with progressLabel := lbl }, .progress s1.progressPercent lbl)

/-- Embeds `_reset_progress`: bar to 0 with the given label (call sites use the
default "Idle"). -/
def reset_progress (s : AppState) (label : String) : AppState × Event :=
  ({ s with progressPercent := 0, progressLabel := label }, .progress 0 label)

/-- The form widgets read by `action_run_scan`: the two text inputs, the
enumerate checkboxes, the flag checkboxes and the extra-arguments input. -/
structure Form where
  target : String
  token : String
  enum_users : Bool
  enum_plugins : Bool
  enum_themes : Bool
  random_ua : Bool
  verbose : Bool
  ignore_main_redirect : Bool
  no_update : Bool
  ignore_tls : Bool
  force : Bool
  no_color : Bool
  extra_args : String

/-- External effects consulted during `action_run_scan`: the result of
`shutil.which("wpscan")`, the result of `shlex.split` on the trimmed
extra-arguments text (`none` models a `ValueError`), and whether
`asyncio.create_subprocess_exec` succeeds (`false` models
`FileNotFoundError`, in which case no child process is created). -/
structure RunEnv where
  which : Option String
  shlexExtra : Option (List String)
  spawnOk : Bool

/-- The argument vector built from the target and the checkbox flags
(lines 284-309 of `action_run_scan`), before extra arguments and the API
token are appended. -/
def build_cmd (wpscan_path target : String) (f : Form) : List String :=
  let cmd := [wpscan_path, "--url", target]
  let enum_flags : List String :=
    (if f.enum_users then ["u"] else []) ++
    (if f.enum_plugins then ["p"] else []) ++
    (if f.enum_themes then ["t"] else [])
  let cmd :=
    if enum_flags.isEmpty then cmd
    else cmd ++ ["--enumerate", String.intercalate "," enum_flags]
  let cmd := if f.random_ua then cmd ++ ["--random-user-agent"] else cmd
  let cmd := if f.verbose then cmd ++ ["--verbose"] else cmd
  let cmd := if f.ignore_main_redirect then cmd ++ ["--ignore-main-redirect"] else cmd
  let cmd := if f.no_update then cmd ++ ["--no-update"] else cmd
  let cmd := if f.ignore_tls then cmd ++ ["--disable-tls-checks"] else cmd
  let cmd := if f.force then cmd ++ ["--force"] else cmd
  if f.no_color then cmd ++ ["--format", "cli-no-colour"] else cmd

/-- The dict built by `add_history_entry`, as a JSON value. -/
def encodeEntry (target command : String) (exit_code : Option Int)
    (output : List String) (timestamp : String) : Json :=
  .obj [ ("target", .str target)
       , ("command", .str command)
       , ("exit_code", match exit_code with | none => .null | some c => .num c)
       , ("output", .arr (output.map .str))
       , ("timestamp", .str timestamp) ]

/-- Embeds `save_history`: `path.parent.mkdir(parents=True, exist_ok=True)` runs
OUTSIDE the try block, so a directory-creation failure propagates to the
caller (the returned flag is the raised exception); `write_text` runs
inside `try/except Exception: pass`, so a write failure is swallowed and
leaves the file unchanged.  The in-memory history is never touched. -/
def save_history (s : AppState) (mkdirOk writeOk : Bool) : AppState × Bool :=
  if mkdirOk then
    if writeOk then ({ s with file := .content (.arr s.history) }, false)
    else (s, false)
  else (s, true)

/-- Embeds `add_history_entry`: builds the record dict, inserts it at index 0,
truncates the history to its first 50 entries, then persists.  The
returned flag propagates an exception raised by `save_history`; the
in-memory insertion and truncation have already happened when it raises.
(`refresh_history_list` only rewrites the display list.) -/
def add_history_entry (s : AppState) (target command : String)
    (exit_code : Option Int) (output : List String) (timestamp : String)
    (mkdirOk writeOk : Bool) : AppState × Bool :=
  let entry := encodeEntry target command exit_code output timestamp
  let s1 := { s with history := (entry :: s.history).take 50 }
  save_history s1 mkdirOk writeOk

/-- Embeds `load_history`: nothing happens on a missing file; a read or parse
error inside the `try` resets the history to `[]`; a parsed value
replaces the history only when `isinstance(data, list)` holds — with no
truncation — and any other parsed value leaves the history as it was. -/
def load_history (s : AppState) : AppState :=
  match s.file with
  | .missing => s
  | .unreadable => { s with history := [] }
  | .malformed => { s with history := [] }
  | .content j =>
    match j with
    | .arr xs => { s with history := xs }
    | _ => s

/-- Embeds `clear_history_storage`: empties the in-memory history and unlinks the
backing file (`missing_ok=True`; an unlink failure is swallowed and
leaves the file behind). -/
def clear_history_storage (s : AppState) (unlinkOk : Bool) : AppState :=
  let s1 := { s with history := [] }
  if unlinkOk then { s1 with file := .missing } else s1

/-- Embeds `action_run_scan`: returns at once while `self.process` is set;
otherwise validates the target, locates the executable, builds the
command, echoes it (log write plus the first `current_output` entry),
flips the buttons, and spawns the child process.  On
`FileNotFoundError` from the spawn it reports an error status and
restores the buttons, leaving `process` unset. -/
def action_run_scan (s : AppState) (f : Form) (env : RunEnv) (clock : Clock) :
    AppState × List Event :=
  if s.process then (s, [])
  else
    let target := strip f.target
    if target = "" then
      let (s1, e1) := set_status s "Enter a target URL before running." true
      let (s2, e2) := reset_progress s1 "Idle"
      (s2, e1 ++ [e2])
    else
      match env.which with
      | none =>
        let (s1, e1) := set_status s "wpscan not found in PATH. Install it first." true
        let (s2, e2) := reset_progress s1 "Idle"
        (s2, e1 ++ [e2])
      | some wpscan_path =>
        let cmd := build_cmd wpscan_path target f
        let extra := strip f.extra_args
        let extraResult : Option (List String) :=
          if extra = "" then some [] else env.shlexExtra
        match extraResult with
        | none =>
          let (s1, e1) := set_status s "Extra arguments malformed (quotes?)." true
          let (s2, e2) := reset_progress s1 "Idle"
          (s2, e1 ++ [e2])
        | some extraParts =>
          let cmd := cmd ++ extraParts
          let token := strip f.token
          let cmd := if token = "" then cmd else cmd ++ ["--api-token", token]
          let cmdStr := String.intercalate " " cmd
          let s1 := { s with current_target := target, current_cmd := cmdStr,
                             current_output := [], start_time := some clock.seconds }
          let (s2, e2) := update_progress s1 (some 0) (some "Ready") clock.seconds
          let (s3, e3) := update_chips s2 "running"
          let echo := "$ " ++ cmdStr
          let s4 := { s3 with current_output := s3.current_output ++ [echo] }
          let (s5, e5) := set_status s4 "Scan running…" false
          let s6 := { s5 with runDisabled := true, stopDisabled := false }
          let baseEvents :=
            [e2, e3, .logClear, .line ("[bold cyan]" ++ echo ++ "[/bold cyan]")] ++ e5
          if env.spawnOk then
            ({ s6 with process := true, output_task := true }, baseEvents)
          else
            let (s7, e7) := set_status s6 "wpscan executable not found." true
            let s8 := { s7 with runDisabled := false, stopDisabled := true }
            (s8, baseEvents ++ e7)

/-- The progress heuristic of `_stream_output`:
`min(95, int(min(elapsed, 240) / 240 * 95))`, with elapsed wall-clock
time in whole seconds since `t0` (the float product at integer seconds is
exact, and `int` truncates, which is `Nat` division here). -/
def streamPct (t0 now : Nat) : Nat := min 95 (min (now - t0) 240 * 95 / 240)

/-- One iteration of the `_stream_output` read loop on a non-empty decoded
line: the line is logged and appended to `current_output`; when
`start_time` is set, the time-derived percentage and a "Running" label
and chip are pushed. -/
def stream_line (s : AppState) (text : String) (clock : Clock) :
    AppState × List Event :=
  let s1 := { s with current_output := s.current_output ++ [text] }
  match s1.start_time with
  | some t0 =>
    let pct := streamPct t0 clock.seconds
    let (s2, e2) := update_progress s1 (some (pct : Int))
        (some ("Running • " ++ elapsed_text s1.start_time clock.seconds)) clock.seconds
    let (s3, e3) := update_chips s2 "running"
    (s3, [.line text, e2, e3])
  | none => (s1, [.line text])

/-- The success half of `_finish_scan` (exit code zero or absent): status
gets the message argument (default "Scan finished."), progress goes to
100 with a "Done" label only when `start_time` is set, and the chip
reads "done". -/
def finishDone (s0 : AppState) (message : Option String) (clock : Clock) :
    AppState × List Event :=
  let final := message.getD "Scan finished."
  let (sa, ea) := set_status s0 final false
  let (sb, eb) :=
    match s0.start_time with
    | some _ =>
      let r := update_progress sa (some 100)
          (some ("Done • " ++ elapsed_text sa.start_time clock.seconds)) clock.seconds
      (r.1, [r.2])
    | none => (sa, [])
  let (sc, ec) := update_chips sb "done"
  (sc, ea ++ eb ++ [ec])

/-- Embeds `_finish_scan`: cancels and forgets the streaming task, clears the
process handle, re-enables Run and disables Stop; with a non-zero exit
code the status becomes "Scan finished with exit code N" (overriding any
message argument), progress 100 with a "Failed" label, chip "failed";
otherwise the success half runs.  If both a target and at least one
output line exist, a Run Record is built and appended (truncating to
50); the returned flag propagates an exception raised from persistence,
in which case the final `start_time = None` assignment is skipped. -/
def finish_scan (s : AppState) (message : Option String)
    (exit_code : Option Int) (clock : Clock) (mkdirOk writeOk : Bool) :
    AppState × List Event × Bool :=
  let s0 := { s with output_task := false, process := false,
                     runDisabled := false, stopDisabled := true }
  let (s2, ev) :=
    match exit_code with
    | some c =>
      if c = 0 then finishDone s0 message clock
      else
        let final := "Scan finished with exit code " ++ toString c
        let (sa, ea) := set_status s0 final true
        let (sb, eb) := update_progress sa (some 100)
            (some ("Failed • " ++ elapsed_text sa.start_time clock.seconds)) clock.seconds
        let (sc, ec) := update_chips sb "failed"
        (sc, ea ++ [eb, ec])
    | none => finishDone s0 message clock
  if s2.current_target != "" && !s2.current_output.isEmpty then
    let (s3, raised) := add_history_entry s2 s2.current_target s2.current_cmd
        exit_code s2.current_output clock.iso mkdirOk writeOk
    if raised then (s3, ev, true)
    else ({ s3 with start_time := none }, ev, false)
  else
    ({ s2 with start_time := none }, ev, false)

/-- Embeds `action_stop_scan`: a no-op without an active process; otherwise it
reports "Stopping scan…", terminates the child (escalating to `kill`
after the 5-second grace period — external; `rc` is `returncode` as
observed afterwards, possibly `none` if the killed process has not been
reaped yet), resets the progress display to 0 labelled "Cancelled", sets
the chip to "cancelled", and finalizes with message "Scan cancelled.". -/
def action_stop_scan (s : AppState) (rc : Option Int) (clock : Clock)
    (mkdirOk writeOk : Bool) : AppState × List Event × Bool :=
  if s.process then
    let (s1, e1) := set_status s "Stopping scan…" false
    let (s2, e2) := update_progress s1 (some 0) (some "Cancelled") clock.seconds
    let (s3, e3) := update_chips s2 "cancelled"
    let (s4, ev4, raised) := finish_scan s3 (some "Scan cancelled.") rc clock mkdirOk writeOk
    (s4, e1 ++ [e2, e3] ++ ev4, raised)
  else (s, [], false)

/-- End of the `_stream_output` loop: after end-of-stream the task awaits
the process and finalizes with its return code and no message override. -/
def stream_end (s : AppState) (rc : Option Int) (clock : Clock)
    (mkdirOk writeOk : Bool) : AppState × List Event × Bool :=
  finish_scan s none rc clock mkdirOk writeOk

/-- Folds `stream_line` over a list of (decoded line, arrival time) pairs:
the output-consumption loop of one run. -/
def stream_lines (s : AppState) (items : List (String × Clock)) : AppState :=
  items.foldl (fun st it => (stream_line st it.1 it.2).1) s

/-- The percentages carried by the progress events of a trace, in order. -/
def progressPercents (evs : List Event) : List Nat :=
  evs.filterMap (fun e => match e with | .progress p _ => some p | _ => none)

/-- The complete argument vector of an accepted run: the flag-built command,
then the split extra arguments, then the API token pair when a token was
entered (lines 311-322 of `action_run_scan`). -/
def full_cmd (wpscan_path : String) (f : Form) (extraParts : List String) : List String :=
  let cmd := build_cmd wpscan_path (strip f.target) f ++ extraParts
  if strip f.token = "" then cmd else cmd ++ ["--api-token", strip f.token]

/-- A concrete form: target filled in, checkboxes as `compose` mounts them
(Users, Random user-agent and Skip DB update checked), everything else
blank. -/
def sampleForm : Form :=
  { target := "https://example.com", token := "", enum_users := true
  , enum_plugins := false, enum_themes := false, random_ua := true
  , verbose := false, ignore_main_redirect := false, no_update := true
  , ignore_tls := false, force := false, no_color := false, extra_args := "" }

/-- A concrete environment where wpscan resolves and spawning succeeds. -/
def sampleEnv : RunEnv :=
  { which := some "/usr/bin/wpscan", shlexExtra := some [], spawnOk := true }

/-- A concrete run accepted from the initial state at t = 0. -/
def sampleRun : AppState × List Event :=
  action_run_scan (initState .missing) sampleForm sampleEnv ⟨0, "2026-01-01T00:00:00"⟩

/-- One output line of that run arriving two minutes in. -/
def sampleLine : AppState × List Event :=
  stream_line sampleRun.1 "[+] URL: https://example.com/" ⟨120, "2026-01-01T00:02:00"⟩

/-- Cancelling that run right afterwards; the SIGTERM from `terminate()`
yields returncode -15. -/
def sampleStop : AppState × List Event × Bool :=
  action_stop_scan sampleLine.1 (some (-15)) ⟨121, "2026-01-01T00:02:01"⟩ true true

/-! Helper lemmas shared by the claim theorems. -/

theorem clampPct_hundred : clampPct 100 = 100 := by decide

theorem clampPct_coe (n : Nat) (h : n ≤ 100) : clampPct (n : Int) = n := by
  unfold clampPct
  rw [max_eq_right (Int.natCast_nonneg n), min_eq_right (by exact_mod_cast h)]
  simp

theorem streamPct_le_95 (t0 now : Nat) : streamPct t0 now ≤ 95 :=
  min_le_left _ _

theorem streamPct_mono (t0 a b : Nat) (h : a ≤ b) :
    streamPct t0 a ≤ streamPct t0 b := by
  unfold streamPct
  have h1 : min (a - t0) 240 ≤ min (b - t0) 240 := by omega
  exact min_le_min (le_refl 95) (Nat.div_le_div_right (Nat.mul_le_mul_right 95 h1))

set_option maxHeartbeats 1000000 in
theorem finish_scan_fst (s : AppState) (m : Option String) (ec : Option Int)
    (clock : Clock) (mk w : Bool) :
    (finish_scan s m ec clock mk w).1 =
      (let s2 : AppState :=
        match ec with
        | some c =>
          if c = 0 then
            { s with output_task := false, process := false, runDisabled := false,
                     stopDisabled := true, statusText := m.getD "Scan finished.",
                     statusError := false, chipStatus := "done",
                     progressPercent := if s.start_time.isSome then 100 else s.progressPercent,
                     progressLabel := if s.start_time.isSome then "Done • " ++ elapsed_text s.start_time clock.seconds else s.progressLabel }
          else
            { s with output_task := false, process := false, runDisabled := false,
                     stopDisabled := true,
                     statusText := "Scan finished with exit code " ++ toString c,
                     statusError := true, chipStatus := "failed",
                     progressPercent := 100,
                     progressLabel := "Failed • " ++ elapsed_text s.start_time clock.seconds }
        | none =>
          { s with output_task := false, process := false, runDisabled := false,
                   stopDisabled := true, statusText := m.getD "Scan finished.",
                   statusError := false, chipStatus := "done",
                   progressPercent := if s.start_time.isSome then 100 else s.progressPercent,
                   progressLabel := if s.start_time.isSome then "Done • " ++ elapsed_text s.start_time clock.seconds else s.progressLabel }
      if s.current_target != "" && !s.current_output.isEmpty then
        { s2 with
          history := (encodeEntry s.current_target s.current_cmd ec s.current_output clock.iso :: s.history).take 50,
          file := if mk && w then FileState.content (.arr ((encodeEntry s.current_target s.current_cmd ec s.current_output clock.iso :: s.history).take 50)) else s.file,
          start_time := if mk then none else s.start_time }
      else { s2 with start_time := none }) := by
  rcases ec with _ | c <;> rcases hst : s.start_time with _ | t0 <;> cases mk <;> cases w
  all_goals
    simp only [finish_scan, finishDone, set_status, update_progress, update_chips,
      add_history_entry, save_history, hst, encodeEntry, Option.isSome]
  all_goals simp [clampPct_hundred]
  all_goals try (split <;> simp_all [clampPct_hundred])
  all_goals try (split <;> simp_all [clampPct_hundred])

theorem stream_line_invariants (s : AppState) (text : String) (c : Clock) :
    (stream_line s text c).1.current_output = s.current_output ++ [text] ∧
    (stream_line s text c).1.current_target = s.current_target ∧
    (stream_line s text c).1.current_cmd = s.current_cmd ∧
    (stream_line s text c).1.history = s.history ∧
    (stream_line s text c).1.start_time = s.start_time ∧
    (stream_line s text c).1.process = s.process ∧
    (stream_line s text c).1.file = s.file := by
  rcases h : s.start_time with _ | t0 <;>
    simp [stream_line, update_progress, update_chips, h]

theorem stream_lines_spec (items : List (String × Clock)) (s : AppState) :
    (stream_lines s items).current_output = s.current_output ++ items.map Prod.fst ∧
    (stream_lines s items).current_target = s.current_target ∧
    (stream_lines s items).current_cmd = s.current_cmd ∧
    (stream_lines s items).history = s.history ∧
    (stream_lines s items).start_time = s.start_time ∧
    (stream_lines s items).process = s.process ∧
    (stream_lines s items).file = s.file := by
  induction items generalizing s with
  | nil => simp [stream_lines]
  | cons it rest ih =>
    obtain ⟨o1, t1, c1, h1, s1, p1, f1⟩ := stream_line_invariants s it.1 it.2
    obtain ⟨o2, t2, c2, h2, s2, p2, f2⟩ := ih ((stream_line s it.1 it.2).1)
    have hfold : stream_lines s (it :: rest) = stream_lines ((stream_line s it.1 it.2).1) rest := rfl
    rw [hfold]
    exact ⟨by rw [o2, o1]; simp, by rw [t2, t1], by rw [c2, c1], by rw [h2, h1],
      by rw [s2, s1], by rw [p2, p1], by rw [f2, f1]⟩

theorem run_scan_accepted_state (s : AppState) (f : Form) (env : RunEnv)
    (clock : Clock) (wp : String) (parts : List String)
    (hp : s.process = false) (ht : ¬ strip f.target = "")
    (hw : env.which = some wp)
    (hx : (if strip f.extra_args = "" then some [] else env.shlexExtra) = some parts)
    (hs : env.spawnOk = true) :
    (action_run_scan s f env clock).1 =
      { s with process := true, output_task := true,
               current_target := strip f.target,
               current_cmd := String.intercalate " " (full_cmd wp f parts),
               current_output := ["$ " ++ String.intercalate " " (full_cmd wp f parts)],
               start_time := some clock.seconds,
               progressPercent := 0, progressLabel := "Ready",
               statusText := "Scan running…", statusError := false,
               chipStatus := "running", runDisabled := true, stopDisabled := false } := by
  simp only [action_run_scan, hp, ht, hw, hx, hs, full_cmd, set_status,
    update_chips, update_progress, reset_progress, Bool.false_eq_true, if_false]
  simp [clampPct]

theorem stream_line_fst_some (s : AppState) (text : String) (c : Clock) (t0 : Nat)
    (h : s.start_time = some t0) :
    (stream_line s text c).1 =
      { s with current_output := s.current_output ++ [text],
               progressPercent := streamPct t0 c.seconds,
               progressLabel := "Running • " ++ elapsed_text (some t0) c.seconds,
               chipStatus := "running" } := by
  simp only [stream_line, update_progress, update_chips, h]
  simp [clampPct_coe _ (le_trans (streamPct_le_95 t0 c.seconds) (by norm_num))]

theorem finish_scan_sets_100 (s : AppState) (m : Option String) (ec : Option Int)
    (clock : Clock) (mk w : Bool) (t0 : Nat) (h : s.start_time = some t0) :
    (finish_scan s m ec clock mk w).1.progressPercent = 100 := by
  rw [finish_scan_fst]
  rcases ec with _ | c <;> simp [h] <;> split <;> simp [h] <;> split <;> simp [h]

theorem stop_scan_cancel_events_head (s : AppState) (rc : Option Int) (clock : Clock)
    (mk w : Bool) (hp : s.process = true) :
    (action_stop_scan s rc clock mk w).2.1.get? 0 = some (.statusMsg "Stopping scan…" false) ∧
    (action_stop_scan s rc clock mk w).2.1.get? 1 = some (.progress 0 "Cancelled") ∧
    (action_stop_scan s rc clock mk w).2.1.get? 2 = some (.chip "cancelled") := by
  simp [action_stop_scan, hp, set_status, update_progress, update_chips, clampPct]

theorem clampPct_zero : clampPct 0 = 0 := by decide

theorem head_take50 (e : Json) (h : List Json) :
    ((e :: h).take 50).head? = some e := by
  rw [show (50 : Nat) = 49 + 1 from rfl, List.take_succ_cons]; rfl

theorem stop_scan_fst (s : AppState) (rc : Option Int) (clock : Clock)
    (mk w : Bool) (hp : s.process = true) :
    (action_stop_scan s rc clock mk w).1 =
      (finish_scan
        { s with statusText := "Stopping scan…", statusError := false,
                 progressPercent := 0, progressLabel := "Cancelled",
                 chipStatus := "cancelled" }
        (some "Scan cancelled.") rc clock mk w).1 := by
  simp only [action_stop_scan, hp, if_true, set_status, update_progress, update_chips,
    clampPct_zero]
  rfl

/-! The claim theorems. -/

/-- Claim C1: a Start invoked while a child process exists (the run is in
its Running or Cancelling phase) returns without spawning a second
process and leaves the entire controller state — process handle, output
lines, target, command, start time, history — unchanged, emitting no
notification. -/
theorem start_while_active_is_noop (s : AppState) (f : Form) (env : RunEnv)
    (clock : Clock) (h : s.process = true) :
    action_run_scan s f env clock = (s, []) := by
  simp [action_run_scan, h]

/-- Witness for C1 at a concrete busy state. -/
theorem start_while_active_is_noop_witness :
    ({ initState .missing with process := true } : AppState).process = true ∧
    action_run_scan { initState .missing with process := true } sampleForm sampleEnv
        ⟨0, "2026-01-01T00:00:00"⟩
      = ({ initState .missing with process := true }, []) :=
  ⟨rfl, start_while_active_is_noop _ _ _ _ rfl⟩

/-- Claim C2 (amended): each streaming progress update equals the
time-derived heuristic `streamPct`, which is non-decreasing in the clock
and capped at 95; finalization sets the bar to exactly 100 (here under a
set `start_time`, which holds throughout a run); but a cancellation first
emits a progress reset to 0 labelled "Cancelled" (the second event of
`action_stop_scan`) before finalization pushes 100, so the reported
percentage is not globally non-decreasing across a cancellation. -/
theorem progress_heuristic_bounds (s : AppState) (t0 : Nat) (text : String)
    (c1 c2 c3 : Clock) (m : Option String) (ec : Option Int)
    (rc : Option Int) (mk w : Bool)
    (h0 : s.start_time = some t0) (hp : s.process = true)
    (hle : c1.seconds ≤ c2.seconds) :
    (stream_line s text c1).1.progressPercent = streamPct t0 c1.seconds ∧
    streamPct t0 c1.seconds ≤ streamPct t0 c2.seconds ∧
    streamPct t0 c1.seconds ≤ 95 ∧
    (finish_scan s m ec c3 mk w).1.progressPercent = 100 ∧
    (action_stop_scan s rc c3 mk w).2.1.get? 1 = some (.progress 0 "Cancelled") ∧
    (action_stop_scan s rc c3 mk w).1.progressPercent = 100 := by
  refine ⟨?_, streamPct_mono t0 _ _ hle, streamPct_le_95 t0 _,
    finish_scan_sets_100 s m ec c3 mk w t0 h0,
    (stop_scan_cancel_events_head s rc c3 mk w hp).2.1, ?_⟩
  · rw [stream_line_fst_some s text c1 t0 h0]
  · rw [stop_scan_fst s rc c3 mk w hp]
    exact finish_scan_sets_100 _ _ _ _ _ _ t0 h0

/-- Witness for C2 (amended) on a concrete running state. -/
theorem progress_heuristic_bounds_witness :
    sampleLine.1.start_time = some 0 ∧ sampleLine.1.process = true ∧
    ((⟨130, "a"⟩ : Clock).seconds ≤ (⟨131, "b"⟩ : Clock).seconds) ∧
    ((stream_line sampleLine.1 "[i] Updating" ⟨130, "a"⟩).1.progressPercent
        = streamPct 0 (⟨130, "a"⟩ : Clock).seconds ∧
      streamPct 0 (⟨130, "a"⟩ : Clock).seconds ≤ streamPct 0 (⟨131, "b"⟩ : Clock).seconds ∧
      streamPct 0 (⟨130, "a"⟩ : Clock).seconds ≤ 95 ∧
      (finish_scan sampleLine.1 none (some 0) ⟨140, "c"⟩ true true).1.progressPercent = 100 ∧
      (action_stop_scan sampleLine.1 (some (-15)) ⟨140, "c"⟩ true true).2.1.get? 1
        = some (.progress 0 "Cancelled") ∧
      (action_stop_scan sampleLine.1 (some (-15)) ⟨140, "c"⟩ true true).1.progressPercent = 100) :=
  ⟨by decide, by decide, by decide,
    progress_heuristic_bounds sampleLine.1 0 "[i] Updating" ⟨130, "a"⟩ ⟨131, "b"⟩ ⟨140, "c"⟩
      none (some 0) (some (-15)) true true (by decide) (by decide) (by decide)⟩

/-- Counterexample to C2 as stated: in the concrete trace run-line-cancel,
the percentages reported to the sink are 0 (Ready), 47 (the heuristic two
minutes in), 0 (the "Cancelled" reset emitted by `action_stop_scan`
before finalizing) and 100 (finalization) — the drop from 47 to 0 occurs
before finalization, so the sequence is not non-decreasing. -/
theorem cancel_resets_progress_before_finalize :
    progressPercents (sampleRun.2 ++ sampleLine.2 ++ sampleStop.2.1) = [0, 47, 0, 100] ∧
    ¬ ((47 : Nat) ≤ 0) :=
  ⟨by decide, by decide⟩

/-- Claim C3 (amended): cancelling an active run finalizes with the
message "Scan cancelled." only when the observed exit code is 0 or
absent; a non-zero exit code (the usual case after SIGTERM) makes
`_finish_scan` override the message with the failure report
"Scan finished with exit code N" and the "failed" chip.  A Run Record is
still created whenever a target is set (the output is then non-empty). -/
theorem cancel_reports_by_exit_code (s : AppState) (rc : Option Int) (clock : Clock)
    (mk w : Bool) (hp : s.process = true) (ht : ¬ s.current_target = "")
    (ho : ¬ s.current_output = []) :
    (action_stop_scan s rc clock mk w).1.statusText =
      (if rc = none ∨ rc = some 0 then "Scan cancelled."
       else "Scan finished with exit code " ++ toString (rc.getD 0)) ∧
    (action_stop_scan s rc clock mk w).1.chipStatus =
      (if rc = none ∨ rc = some 0 then "done" else "failed") ∧
    (action_stop_scan s rc clock mk w).1.history.head? =
      some (encodeEntry s.current_target s.current_cmd rc s.current_output clock.iso) := by
  rw [stop_scan_fst s rc clock mk w hp]
  simp only [finish_scan_fst]
  rcases rc with _ | c
  · simp [ht, ho, head_take50]
  · by_cases hc : c = 0 <;> simp [ht, ho, hc, head_take50]

/-- Witness for C3 (amended) with a clean exit code, where the
cancellation message does survive. -/
theorem cancel_reports_by_exit_code_witness :
    sampleLine.1.process = true ∧ ¬ sampleLine.1.current_target = "" ∧
    ¬ sampleLine.1.current_output = [] ∧
    ((action_stop_scan sampleLine.1 (some 0) ⟨121, "2026-01-01T00:02:01"⟩ true true).1.statusText =
      (if (some 0 : Option Int) = none ∨ (some 0 : Option Int) = some 0 then "Scan cancelled."
       else "Scan finished with exit code " ++ toString ((some 0 : Option Int).getD 0)) ∧
     (action_stop_scan sampleLine.1 (some 0) ⟨121, "2026-01-01T00:02:01"⟩ true true).1.chipStatus =
      (if (some 0 : Option Int) = none ∨ (some 0 : Option Int) = some 0 then "done" else "failed") ∧
     (action_stop_scan sampleLine.1 (some 0) ⟨121, "2026-01-01T00:02:01"⟩ true true).1.history.head? =
      some (encodeEntry sampleLine.1.current_target sampleLine.1.current_cmd (some 0)
        sampleLine.1.current_output "2026-01-01T00:02:01")) :=
  ⟨by decide, by decide, by decide,
    cancel_reports_by_exit_code sampleLine.1 (some 0) ⟨121, "2026-01-01T00:02:01"⟩ true true
      (by decide) (by decide) (by decide)⟩

/-- Counterexample to C3 as stated: cancelling the concrete run whose
termination yields exit code -15 finalizes with the failure status
"Scan finished with exit code -15" and the "failed" chip, not with the
distinct cancellation message "Scan cancelled.". -/
theorem cancel_nonzero_exit_reports_failure :
    sampleStop.1.statusText = "Scan finished with exit code -15" ∧
    ¬ sampleStop.1.statusText = "Scan cancelled." ∧
    sampleStop.1.chipStatus = "failed" :=
  ⟨by decide, by decide, by decide⟩

/-- Claim C4 (amended): Append and Clear always leave at most 50 entries;
Append inserts the new record at index 0 and truncates beyond the cap,
so Append on a history of exactly 50 entries yields exactly 50 with the
oldest evicted and the new record first.  Load, however, adopts the
persisted list without truncation (see the counterexample), so the cap
is not re-established by Load. -/
theorem history_mutation_cap (s s2 : AppState) (t c : String) (ec : Option Int)
    (out : List String) (ts : String) (mk w u : Bool)
    (h50 : s.history.length = 50) :
    (add_history_entry s2 t c ec out ts mk w).1.history.length ≤ 50 ∧
    (clear_history_storage s2 u).history.length ≤ 50 ∧
    (add_history_entry s2 t c ec out ts mk w).1.history.head?
      = some (encodeEntry t c ec out ts) ∧
    (add_history_entry s t c ec out ts mk w).1.history
      = encodeEntry t c ec out ts :: s.history.dropLast ∧
    (add_history_entry s t c ec out ts mk w).1.history.length = 50 := by
  have hadd : ∀ (x : AppState), (add_history_entry x t c ec out ts mk w).1.history
      = (encodeEntry t c ec out ts :: x.history).take 50 := by
    intro x; cases mk <;> cases w <;> simp [add_history_entry, save_history]
  have h51 : (50 : Nat) = 49 + 1 := rfl
  refine ⟨?_, ?_, ?_, ?_, ?_⟩
  · rw [hadd]; exact List.length_take_le 50 _
  · cases u <;> simp [clear_history_storage]
  · rw [hadd, h51, List.take_succ_cons]; rfl
  · rw [hadd, h51, List.take_succ_cons, List.dropLast_eq_take, h50]
  · rw [hadd]; simp [h50]

/-- Witness for C4 (amended) on a history holding exactly 50 entries. -/
theorem history_mutation_cap_witness :
    ({ initState .missing with history := List.replicate 50 Json.null } : AppState).history.length = 50 ∧
    ((add_history_entry (initState .missing) "t" "c" none ["o"] "ts" true true).1.history.length ≤ 50 ∧
     (clear_history_storage (initState .missing) true).history.length ≤ 50 ∧
     (add_history_entry (initState .missing) "t" "c" none ["o"] "ts" true true).1.history.head?
       = some (encodeEntry "t" "c" none ["o"] "ts") ∧
     (add_history_entry { initState .missing with history := List.replicate 50 Json.null }
         "t" "c" none ["o"] "ts" true true).1.history
       = encodeEntry "t" "c" none ["o"] "ts"
           :: ({ initState .missing with history := List.replicate 50 Json.null } : AppState).history.dropLast ∧
     (add_history_entry { initState .missing with history := List.replicate 50 Json.null }
         "t" "c" none ["o"] "ts" true true).1.history.length = 50) :=
  ⟨by decide,
    history_mutation_cap { initState .missing with history := List.replicate 50 Json.null }
      (initState .missing) "t" "c" none ["o"] "ts" true true true (by decide)⟩

/-- Counterexample to C4 as stated: Load on a backing file holding a
well-formed array of 51 entries yields an in-memory history of 51
entries — `load_history` performs no truncation, so the ≤ 50 invariant
does not hold after every mutating operation. -/
theorem load_reads_oversized_file_uncapped :
    (load_history (initState (.content (.arr (List.replicate 51 Json.null))))).history.length = 51 ∧
    ¬ (load_history (initState (.content (.arr (List.replicate 51 Json.null))))).history.length ≤ 50 :=
  ⟨rfl, by decide⟩

/-- Claim C5: after Finalize — whether reached from natural exit, via
`stream_end`, or from cancellation — the process handle and streaming
task are cleared and the Run button re-enabled; the terminal chip is
"done" exactly when the exit code is zero or absent and "failed"
otherwise; and a Run Record is prepended to the history (with the
50-cap) exactly when the target is non-empty and at least one output
line exists. -/
theorem finalize_postconditions (s : AppState) (m : Option String) (ec : Option Int)
    (clock : Clock) (mk w : Bool) :
    (finish_scan s m ec clock mk w).1.process = false ∧
    (finish_scan s m ec clock mk w).1.output_task = false ∧
    (finish_scan s m ec clock mk w).1.runDisabled = false ∧
    (finish_scan s m ec clock mk w).1.chipStatus =
      (if ec = none ∨ ec = some 0 then "done" else "failed") ∧
    (finish_scan s m ec clock mk w).1.history =
      (if ¬ s.current_target = "" ∧ ¬ s.current_output = [] then
        (encodeEntry s.current_target s.current_cmd ec s.current_output clock.iso :: s.history).take 50
      else s.history) := by
  simp only [finish_scan_fst]
  rcases ec with _ | c
  · by_cases hk : ¬ s.current_target = "" ∧ ¬ s.current_output = [] <;> cases mk <;> simp [hk]
  · by_cases hc : c = 0 <;>
      by_cases hk : ¬ s.current_target = "" ∧ ¬ s.current_output = [] <;>
      cases mk <;> simp [hk, hc]

/-- Claim C6: a Start that fails to launch — `shutil.which` finds no
wpscan, or the spawn raises `FileNotFoundError` — creates no child
process, leaves the controller able to accept a subsequent Start
(`process` stays unset, which is the only guard at the top of
`action_run_scan`), pushes an error status to the Output Sink, and adds
no Run Record to the history. -/
theorem run_scan_launch_failure (s : AppState) (f : Form) (env : RunEnv) (clock : Clock)
    (hp : s.process = false) (ht : ¬ strip f.target = "")
    (hfail : env.which = none ∨ env.spawnOk = false) :
    (action_run_scan s f env clock).1.process = false ∧
    (action_run_scan s f env clock).1.history = s.history ∧
    (action_run_scan s f env clock).1.statusError = true ∧
    (action_run_scan s f env clock).1.chipStatus = "error" ∧
    (∃ t, Event.statusMsg t true ∈ (action_run_scan s f env clock).2) := by
  rcases hfail with h | h
  · simp [action_run_scan, hp, ht, h, set_status, reset_progress]
  · rcases hw : env.which with _ | wp
    · simp [action_run_scan, hp, ht, hw, set_status, reset_progress]
    · rcases hex : (if strip f.extra_args = "" then some [] else env.shlexExtra) with _ | parts
      · simp [action_run_scan, hp, ht, hw, hex, set_status, reset_progress]
      · simp [action_run_scan, hp, ht, hw, hex, h, set_status, reset_progress,
          update_progress, update_chips]

/-- Witness for C6 with wpscan absent from PATH. -/
theorem run_scan_launch_failure_witness :
    ((initState .missing) : AppState).process = false ∧
    ¬ strip sampleForm.target = "" ∧
    (({ which := none, shlexExtra := some [], spawnOk := true } : RunEnv).which = none ∨
      ({ which := none, shlexExtra := some [], spawnOk := true } : RunEnv).spawnOk = false) ∧
    ((action_run_scan (initState .missing) sampleForm
        { which := none, shlexExtra := some [], spawnOk := true } ⟨0, "i"⟩).1.process = false ∧
     (action_run_scan (initState .missing) sampleForm
        { which := none, shlexExtra := some [], spawnOk := true } ⟨0, "i"⟩).1.history
       = (initState .missing).history ∧
     (action_run_scan (initState .missing) sampleForm
        { which := none, shlexExtra := some [], spawnOk := true } ⟨0, "i"⟩).1.statusError = true ∧
     (action_run_scan (initState .missing) sampleForm
        { which := none, shlexExtra := some [], spawnOk := true } ⟨0, "i"⟩).1.chipStatus = "error" ∧
     (∃ t, Event.statusMsg t true ∈ (action_run_scan (initState .missing) sampleForm
        { which := none, shlexExtra := some [], spawnOk := true } ⟨0, "i"⟩).2)) :=
  ⟨rfl, by decide, Or.inl rfl,
    run_scan_launch_failure (initState .missing) sampleForm _ ⟨0, "i"⟩ rfl (by decide) (Or.inl rfl)⟩

/-- Claim C7: Load on a backing file that is missing, unreadable, or
holds malformed content (a text `json.loads` rejects, or a parsed value
that is not a list) yields an empty history — starting, as at process
start-up where Load is invoked, from an empty in-memory history — and
raises nothing (`load_history` is total here; the read and parse sit in
a try/except in the source). -/
theorem load_on_missing_or_corrupt_file (s : AppState) (h0 : s.history = [])
    (hbad : s.file = .missing ∨ s.file = .unreadable ∨ s.file = .malformed ∨
      ∃ j, s.file = .content j ∧ ∀ xs, ¬ j = Json.arr xs) :
    (load_history s).history = [] := by
  rcases hbad with h | h | h | ⟨j, hj, hja⟩
  · simp [load_history, h, h0]
  · simp [load_history, h]
  · simp [load_history, h]
  · cases j <;> simp_all [load_history]

/-- Witness for C7 on a malformed file. -/
theorem load_on_missing_or_corrupt_file_witness :
    (initState .malformed).history = [] ∧ (load_history (initState .malformed)).history = [] :=
  ⟨rfl, load_on_missing_or_corrupt_file _ rfl (Or.inr (Or.inr (Or.inl rfl)))⟩

/-- Claim C8: Append followed by Load reading back what was just
persisted yields a history whose first element is exactly the appended
record, and every field of the record — target, command, exit_code,
output, timestamp — projects back out of the persisted JSON object
unchanged. -/
theorem append_then_reload_roundtrip (s : AppState) (target command : String)
    (ec : Option Int) (out : List String) (ts : String) :
    (load_history { (add_history_entry s target command ec out ts true true).1 with
        history := [] }).history.head?
      = some (encodeEntry target command ec out ts) ∧
    jsonGet (encodeEntry target command ec out ts) "target" = some (.str target) ∧
    jsonGet (encodeEntry target command ec out ts) "command" = some (.str command) ∧
    jsonGet (encodeEntry target command ec out ts) "exit_code"
      = some (match ec with | none => Json.null | some c => Json.num c) ∧
    jsonGet (encodeEntry target command ec out ts) "output" = some (.arr (out.map .str)) ∧
    jsonGet (encodeEntry target command ec out ts) "timestamp" = some (.str ts) := by
  have h51 : (50 : Nat) = 49 + 1 := rfl
  refine ⟨?_, ?_, ?_, ?_, ?_, ?_⟩
  · simp [add_history_entry, save_history, load_history, h51, List.take_succ_cons]
  all_goals simp [jsonGet, encodeEntry, List.find?]

/-- Claim C9 (amended): `save_history` swallows a write failure — the
call returns normally with the file and the in-memory history unchanged
— and the in-memory history is never touched by persistence at all; but
a directory-creation failure is NOT swallowed: `mkdir` runs outside the
try block, so that exception propagates to the caller (the returned flag
below), though it too leaves history and file unchanged. -/
theorem save_history_effects (s : AppState) (mk w : Bool) :
    save_history s mk w =
      ((if mk && w then { s with file := .content (.arr s.history) } else s), !mk) ∧
    (save_history s mk w).1.history = s.history := by
  cases mk <;> cases w <;> simp [save_history]

/-- Counterexample to C9 as stated: a directory-creation failure during a
write attempt is not swallowed — `save_history` propagates it (raised
flag true), because the `mkdir` call sits outside the try/except. -/
theorem save_history_mkdir_failure_propagates :
    (save_history (initState .missing) false true).2 = true := rfl

/-- Claim C10: an accepted Start seeds `current_output` with the echoed
command line prefixed "$ " before any process output is read, so for a
run with non-empty target that then emits n lines and finalizes (even
immediately), a Run Record lands at the head of the history whose output
is the echo followed by the n lines — length n + 1, first element the
echoed command line. -/
theorem accepted_run_creates_record (s : AppState) (f : Form) (env : RunEnv)
    (c0 : Clock) (items : List (String × Clock)) (rc : Int) (c1 : Clock)
    (mk w : Bool) (wp : String) (parts : List String)
    (hp : s.process = false) (ht : ¬ strip f.target = "")
    (hw : env.which = some wp)
    (hx : (if strip f.extra_args = "" then some [] else env.shlexExtra) = some parts)
    (hs : env.spawnOk = true) :
    (action_run_scan s f env c0).1.current_output
      = ["$ " ++ (action_run_scan s f env c0).1.current_cmd] ∧
    (stream_end (stream_lines (action_run_scan s f env c0).1 items) (some rc) c1 mk w).1.history.head?
      = some (encodeEntry (strip f.target) (String.intercalate " " (full_cmd wp f parts)) (some rc)
          (("$ " ++ String.intercalate " " (full_cmd wp f parts)) :: items.map Prod.fst) c1.iso) ∧
    (("$ " ++ String.intercalate " " (full_cmd wp f parts)) :: items.map Prod.fst).length
      = items.length + 1 := by
  have hA := run_scan_accepted_state s f env c0 wp parts hp ht hw hx hs
  obtain ⟨ho, htg, hcm, hh, hst, hpr, hfl⟩ := stream_lines_spec items (action_run_scan s f env c0).1
  refine ⟨by rw [hA], ?_, by simp⟩
  unfold stream_end
  rw [hA] at ho htg hcm hh ⊢
  rw [finish_scan_fst]
  simp [ho, htg, hcm, hh, ht, head_take50]

/-- Witness for C10: the sample run emitting one line and exiting 0. -/
theorem accepted_run_creates_record_witness :
    (initState .missing).process = false ∧
    ¬ strip sampleForm.target = "" ∧
    sampleEnv.which = some "/usr/bin/wpscan" ∧
    (if strip sampleForm.extra_args = "" then some [] else sampleEnv.shlexExtra)
      = some ([] : List String) ∧
    sampleEnv.spawnOk = true ∧
    ((action_run_scan (initState .missing) sampleForm sampleEnv ⟨0, "z"⟩).1.current_output
      = ["$ " ++ (action_run_scan (initState .missing) sampleForm sampleEnv ⟨0, "z"⟩).1.current_cmd] ∧
     (stream_end (stream_lines (action_run_scan (initState .missing) sampleForm sampleEnv ⟨0, "z"⟩).1
          [("[+] URL: https://example.com/", ⟨5, "y"⟩)]) (some 0) ⟨9, "2026-01-01T00:00:09"⟩ true true).1.history.head?
      = some (encodeEntry (strip sampleForm.target)
          (String.intercalate " " (full_cmd "/usr/bin/wpscan" sampleForm [])) (some 0)
          (("$ " ++ String.intercalate " " (full_cmd "/usr/bin/wpscan" sampleForm []))
            :: [("[+] URL: https://example.com/", (⟨5, "y"⟩ : Clock))].map Prod.fst)
          "2026-01-01T00:00:09") ∧
     (("$ " ++ String.intercalate " " (full_cmd "/usr/bin/wpscan" sampleForm []))
        :: [("[+] URL: https://example.com/", (⟨5, "y"⟩ : Clock))].map Prod.fst).length
      = [("[+] URL: https://example.com/", (⟨5, "y"⟩ : Clock))].length + 1) :=
  ⟨rfl, by decide, rfl, by decide, rfl,
    accepted_run_creates_record (initState .missing) sampleForm sampleEnv ⟨0, "z"⟩
      [("[+] URL: https://example.com/", ⟨5, "y"⟩)] 0 ⟨9, "2026-01-01T00:00:09"⟩ true true
      "/usr/bin/wpscan" [] rfl (by decide) rfl (by decide) rfl⟩

end WpscanTui
